import Mathlib

/-!
Shallow embedding of the axon_cluster peer request/response subsystem
(src/protocol.rs, src/main.rs, src/http_server.rs) and proofs of the
specification claims about it.

Strings on the wire are modelled as lists of UTF-8 bytes (`List Nat`);
strings inside the role state machines are modelled as Lean `String`.
The serde_json serialization of the two derived protocol structs is
modelled byte for byte (compact form, declaration field order, the
escape table of serde_json); the deserializer is modelled restricted to
that canonical form, which is all the claims exercise.
-/

namespace AxonCluster

/-- Bytes on the wire are modelled as natural numbers (0-255). -/
abbrev Byte := Nat

/-- Request sent from Subordinate to Leader (src/protocol.rs lines 9-13),
parametric in the string representation: `List Byte` at the codec layer,
`String` in the role machines. -/
structure InferenceRequest (α : Type) where
  prompt : α
  model : Option α
deriving DecidableEq, Repr

/-- Response sent from Leader to Subordinate (src/protocol.rs lines 16-21).
The source names the text field `response`; the spec calls it `text`. -/
structure InferenceResponse (α : Type) where
  response : α
  success : Bool
  error : Option α
deriving DecidableEq, Repr

/-- The `as u32` cast used on `data.len()` in write_request / write_response. -/
def u32 (n : Nat) : Nat := n % 2 ^ 32

/-- Big-endian bytes of a u32 value, modelling `u32::to_be_bytes`. -/
def toBE4 (n : Nat) : List Byte :=
  [n / 2 ^ 24 % 256, n / 2 ^ 16 % 256, n / 2 ^ 8 % 256, n % 256]

/-- Models `u32::from_be_bytes` on an exactly-4-byte buffer. -/
def fromBE4 (bs : List Byte) : Nat :=
  match bs with
  | [b0, b1, b2, b3] => ((b0 * 256 + b1) * 256 + b2) * 256 + b3
  | _ => 0

/-- Models `read_exact` on a stream whose remaining contents are `s`:
succeeds with the bytes read and the rest exactly when at least `n`
bytes remain; a shorter stream gives the UnexpectedEof error. -/
def readExact (n : Nat) (s : List Byte) : Option (List Byte × List Byte) :=
  if n ≤ s.length then some (s.take n, s.drop n) else none

/-- Lowercase hex digit byte, as in serde_json's HEX_DIGITS table. -/
def hexDig (n : Nat) : Byte := if n < 10 then 48 + n else 87 + n

/-- Models serde_json's escape of one string byte: quote and backslash get
two-byte escapes, the five short control escapes apply, remaining control
bytes become a lowercase hexadecimal escape, everything else passes through. -/
def escapeByte (b : Byte) : List Byte :=
  if b = 34 then [92, 34]
  else if b = 92 then [92, 92]
  else if b = 8 then [92, 98]
  else if b = 9 then [92, 116]
  else if b = 10 then [92, 110]
  else if b = 12 then [92, 102]
  else if b = 13 then [92, 114]
  else if b < 32 then [92, 117, 48, 48, hexDig (b / 16), hexDig (b % 16)]
  else [b]

/-- Escape every byte of a string body. -/
def escapeStr : List Byte → List Byte
  | [] => []
  | b :: t => escapeByte b ++ escapeStr t

/-- A JSON string literal: quote, escaped body, quote. -/
def jstr (s : List Byte) : List Byte := 34 :: (escapeStr s ++ [34])

/-- serde_json::to_vec of an `InferenceRequest`: the compact object
with the fields in declaration order, prompt then model. -/
def serializeRequest (r : InferenceRequest (List Byte)) : List Byte :=
  [123, 34, 112, 114, 111, 109, 112, 116, 34, 58] ++ jstr r.prompt ++
  [44, 34, 109, 111, 100, 101, 108, 34, 58] ++
  (match r.model with
   | none => [110, 117, 108, 108]
   | some m => jstr m) ++ [125]

/-- serde_json::to_vec of an `InferenceResponse`: the compact object with
fields response, success, error in declaration order. -/
def serializeResponse (r : InferenceResponse (List Byte)) : List Byte :=
  [123, 34, 114, 101, 115, 112, 111, 110, 115, 101, 34, 58] ++ jstr r.response ++
  [44, 34, 115, 117, 99, 99, 101, 115, 115, 34, 58] ++
  (if r.success then [116, 114, 117, 101] else [102, 97, 108, 115, 101]) ++
  [44, 34, 101, 114, 114, 111, 114, 34, 58] ++
  (match r.error with
   | none => [110, 117, 108, 108]
   | some e => jstr e) ++ [125]

/-- Value of one hex digit byte (serde_json accepts both cases). -/
def hexVal (b : Byte) : Option Nat :=
  if 48 ≤ b ∧ b ≤ 57 then some (b - 48)
  else if 97 ≤ b ∧ b ≤ 102 then some (b - 87)
  else if 65 ≤ b ∧ b ≤ 70 then some (b - 55)
  else none

/-- Parse the body of a JSON string up to and excluding the closing quote,
returning the unescaped bytes and the input after the closing quote.
Models serde_json's string reader on the ASCII range: raw control bytes
are rejected, the standard escapes are honoured, and a unicode escape is
accepted for code points below 128 (the encoder only emits code points
below 32 there). The first argument is recursion fuel; every step
consumes at least one input byte, so fuel equal to the input length
(as supplied by `parseStrBody`) never runs out. -/
def parseStrBodyF : Nat → List Byte → Option (List Byte × List Byte)
  | 0, _ => none
  | _, [] => none
  | fuel + 1, b :: rest =>
    if b = 34 then some ([], rest)
    else if b = 92 then
      match rest with
      | [] => none
      | e :: rest2 =>
        if e = 34 then (parseStrBodyF fuel rest2).map fun p => (34 :: p.1, p.2)
        else if e = 92 then (parseStrBodyF fuel rest2).map fun p => (92 :: p.1, p.2)
        else if e = 47 then (parseStrBodyF fuel rest2).map fun p => (47 :: p.1, p.2)
        else if e = 98 then (parseStrBodyF fuel rest2).map fun p => (8 :: p.1, p.2)
        else if e = 116 then (parseStrBodyF fuel rest2).map fun p => (9 :: p.1, p.2)
        else if e = 110 then (parseStrBodyF fuel rest2).map fun p => (10 :: p.1, p.2)
        else if e = 102 then (parseStrBodyF fuel rest2).map fun p => (12 :: p.1, p.2)
        else if e = 114 then (parseStrBodyF fuel rest2).map fun p => (13 :: p.1, p.2)
        else if e = 117 then
          match rest2 with
          | h1 :: h2 :: h3 :: h4 :: rest3 =>
            match hexVal h1, hexVal h2, hexVal h3, hexVal h4 with
            | some v1, some v2, some v3, some v4 =>
              let c := ((v1 * 16 + v2) * 16 + v3) * 16 + v4
              if c < 128 then (parseStrBodyF fuel rest3).map fun p => (c :: p.1, p.2) else none
            | _, _, _, _ => none
          | _ => none
        else none
    else if b < 32 then none
    else (parseStrBodyF fuel rest).map fun p => (b :: p.1, p.2)

/-- The JSON string-body reader with enough fuel for its whole input. -/
def parseStrBody (s : List Byte) : Option (List Byte × List Byte) :=
  parseStrBodyF s.length s

/-- Parse one JSON string literal, opening quote included. -/
def parseJStr (s : List Byte) : Option (List Byte × List Byte) :=
  match s with
  | [] => none
  | b :: rest => if b = 34 then parseStrBody rest else none

/-- Consume an expected literal byte sequence from the front of the input. -/
def dropLit (pat s : List Byte) : Option (List Byte) :=
  if s.take pat.length = pat then some (s.drop pat.length) else none

/-- serde_json::from_slice for `InferenceRequest`, restricted to the
compact canonical form the paired serializer emits (no interior
whitespace, declaration field order); the whole buffer must be consumed,
as from_slice rejects trailing data. -/
def parseRequest (buf : List Byte) : Option (InferenceRequest (List Byte)) := do
  let s1 ← dropLit [123, 34, 112, 114, 111, 109, 112, 116, 34, 58] buf
  let (prompt, s2) ← parseJStr s1
  let s3 ← dropLit [44, 34, 109, 111, 100, 101, 108, 34, 58] s2
  match dropLit [110, 117, 108, 108] s3 with
  | some s4 =>
    let s5 ← dropLit [125] s4
    if s5 = [] then some ⟨prompt, none⟩ else none
  | none => do
    let (m, s4) ← parseJStr s3
    let s5 ← dropLit [125] s4
    if s5 = [] then some ⟨prompt, some m⟩ else none

/-- serde_json::from_slice for `InferenceResponse`, restricted to the
compact canonical form the paired serializer emits. -/
def parseResponse (buf : List Byte) : Option (InferenceResponse (List Byte)) := do
  let s1 ← dropLit [123, 34, 114, 101, 115, 112, 111, 110, 115, 101, 34, 58] buf
  let (text, s2) ← parseJStr s1
  let s3 ← dropLit [44, 34, 115, 117, 99, 99, 101, 115, 115, 34, 58] s2
  let (success, s4) ←
    match dropLit [116, 114, 117, 101] s3 with
    | some s4 => some (true, s4)
    | none =>
      match dropLit [102, 97, 108, 115, 101] s3 with
      | some s4 => some (false, s4)
      | none => none
  let s5 ← dropLit [44, 34, 101, 114, 114, 111, 114, 34, 58] s4
  match dropLit [110, 117, 108, 108] s5 with
  | some s6 =>
    let s7 ← dropLit [125] s6
    if s7 = [] then some ⟨text, success, none⟩ else none
  | none => do
    let (e, s6) ← parseJStr s5
    let s7 ← dropLit [125] s6
    if s7 = [] then some ⟨text, success, some e⟩ else none

/-- Decode failures, split the way the source splits io error kinds: a
short `read_exact` surfaces ErrorKind::UnexpectedEof (truncated), a
serde_json failure is wrapped as ErrorKind::InvalidData (malformed). -/
inductive DecodeError where
  | truncated
  | malformed
deriving DecidableEq, Repr

/-- InferenceCodec::read_request (src/protocol.rs lines 33-51): read
exactly 4 length bytes, read exactly that many payload bytes, then
deserialize; `s` is the full remaining content of the stream. -/
def read_request (s : List Byte) : Except DecodeError (InferenceRequest (List Byte)) :=
  match readExact 4 s with
  | none => .error .truncated
  | some (lengthBytes, rest) =>
    match readExact (fromBE4 lengthBytes) rest with
    | none => .error .truncated
    | some (buffer, _) =>
      match parseRequest buffer with
      | some req => .ok req
      | none => .error .malformed

/-- InferenceCodec::read_response (src/protocol.rs lines 53-71). -/
def read_response (s : List Byte) : Except DecodeError (InferenceResponse (List Byte)) :=
  match readExact 4 s with
  | none => .error .truncated
  | some (lengthBytes, rest) =>
    match readExact (fromBE4 lengthBytes) rest with
    | none => .error .truncated
    | some (buffer, _) =>
      match parseResponse buffer with
      | some res => .ok res
      | none => .error .malformed

/-- One effect performed by the writer half of the codec. -/
inductive WAction where
  | write (bs : List Byte)
  | close
deriving DecidableEq, Repr

/-- InferenceCodec::write_request (src/protocol.rs lines 73-93):
serialize, write the 4-byte big-endian `data.len() as u32`, write the
payload, close the write half. -/
def write_request (req : InferenceRequest (List Byte)) : List WAction :=
  [.write (toBE4 (u32 (serializeRequest req).length)),
   .write (serializeRequest req), .close]

/-- InferenceCodec::write_response (src/protocol.rs lines 95-115). -/
def write_response (res : InferenceResponse (List Byte)) : List WAction :=
  [.write (toBE4 (u32 (serializeResponse res).length)),
   .write (serializeResponse res), .close]

/-- The bytes that reach the stream from a list of writer effects. -/
def writtenBytes : List WAction → List Byte
  | [] => []
  | .write bs :: t => bs ++ writtenBytes t
  | .close :: t => writtenBytes t

/-- A request whose serialized payload exceeds the u32 range: 2^32 bytes
of the letter a. Exercises the wrap of `data.len() as u32`. -/
def bigReq : InferenceRequest (List Byte) :=
  { prompt := List.replicate (2 ^ 32) 97, model := none }

/-- The Leader's handling of one inbound request (src/main.rs lines
209-221 and, duplicated verbatim, lines 315-327): pick
`request.model.unwrap_or_else(|| model.clone())`, call the backend
`generate(prompt, model_name)` - here a parameter `gen` standing for
OllamaClient::generate - and build the reply. -/
def handleRequest (gen : String → String → Except String String) (model : String)
    (request : InferenceRequest String) : InferenceResponse String :=
  let model_name := request.model.getD model
  match gen request.prompt model_name with
  | .ok text => { response := text, success := true, error := none }
  | .error e => { response := "", success := false, error := some e }

/-- Events the Leader's web-mode loop selects over
(src/main.rs lines 261-360): an HTTP SwarmCommand, mdns discovery and
expiry, an inbound peer request, an inbound response to one of our
outbound requests, or anything else (the wildcard arm). PeerIds and
oneshot responders are modelled as opaque numeric identifiers. -/
inductive LEvent where
  | command (prompt : String) (responder : Nat)
  | discovered (peers : List Nat)
  | expired (peers : List Nat)
  | requestMsg (req : InferenceRequest String)
  | responseMsg (request_id : Nat) (resp : InferenceResponse String)
  | other
deriving DecidableEq, Repr

/-- Outward effects of the Leader loop. `sendRequest` is expressible but,
as the proofs show, never produced: the source never originates one. -/
inductive LAction where
  | sendResponse (resp : InferenceResponse String)
  | sendRequest (peer : Nat) (req : InferenceRequest String)
deriving DecidableEq, Repr

instance {ε α : Type} [DecidableEq ε] [DecidableEq α] : DecidableEq (Except ε α) := fun x y =>
  match x, y with
  | .ok a, .ok b => decidable_of_iff (a = b) (by simp)
  | .error a, .error b => decidable_of_iff (a = b) (by simp)
  | .ok _, .error _ => .isFalse (by simp)
  | .error _, .ok _ => .isFalse (by simp)

/-- State of run_leader_with_http: the pending-request correlator map
(src/main.rs lines 250-251, OutboundRequestId to oneshot sender, here an
association list with unique keys) together with a log of the values
sent through oneshot responders, newest first, so that what each
response slot observed is provable. -/
structure LeaderHttpState where
  pending_requests : List (Nat × Nat)
  writes : List (Nat × Except String String)
deriving DecidableEq, Repr

/-- The fixed failure string of the unimplemented web-mode ask path
(src/main.rs lines 275-277). -/
def webUiErr : String :=
  "Web UI mode currently requires P2P peers. Use \x27ask\x27 mode from another node."

/-- HashMap lookup on the association-list model. -/
def lookupKey (l : List (Nat × Nat)) (k : Nat) : Option Nat :=
  match l with
  | [] => none
  | (k2, v) :: t => if k2 = k then some v else lookupKey t k

/-- HashMap::remove on the association-list model (unique keys). -/
def removeKey (l : List (Nat × Nat)) (k : Nat) : List (Nat × Nat) :=
  match l with
  | [] => []
  | (k2, v) :: t => if k2 = k then t else (k2, v) :: removeKey t k

/-- `pending_requests.insert(req_id, responder)`: registration of a
pending response slot with the correlator map. In the current source
this insert only appears in the commented-out TODO block of the ask arm
(src/main.rs line 287); the map and its resolve side are live code. -/
def registerPending (st : LeaderHttpState) (request_id responder : Nat) : LeaderHttpState :=
  { st with pending_requests := (request_id, responder) :: st.pending_requests }

/-- Translation of an inbound `InferenceResponse` into the
`Result<String, String>` delivered to the waiting oneshot sender
(src/main.rs lines 344-348). -/
def mkResult (resp : InferenceResponse String) : Except String String :=
  if resp.success then .ok resp.response
  else .error (resp.error.getD "Unknown error")

/-- The Response arm of run_leader_with_http (src/main.rs lines 336-351):
`pending_requests.remove(&request_id)` - if an entry existed, deliver the
translated outcome to its responder; otherwise do nothing (the response
is silently dropped). -/
def onResponseEvent (st : LeaderHttpState) (request_id : Nat)
    (resp : InferenceResponse String) : LeaderHttpState :=
  match lookupKey st.pending_requests request_id with
  | some responder =>
    { pending_requests := removeKey st.pending_requests request_id,
      writes := (responder, mkResult resp) :: st.writes }
  | none => st

/-- The SwarmCommand::Ask arm (src/main.rs lines 266-288): the responder
is immediately sent Err(webUiErr), unconditionally; the TODO block that
would select a peer, dispatch a request and register it is commented
out in the source. -/
def onAskCommand (st : LeaderHttpState) (_prompt : String) (responder : Nat) : LeaderHttpState :=
  { st with writes := (responder, .error webUiErr) :: st.writes }

/-- One iteration of the run_leader_with_http select loop
(src/main.rs lines 261-360). -/
def leaderHttpStep (gen : String → String → Except String String) (model : String)
    (st : LeaderHttpState) : LEvent → LeaderHttpState × List LAction
  | .command prompt responder => (onAskCommand st prompt responder, [])
  | .requestMsg req => (st, [.sendResponse (handleRequest gen model req)])
  | .responseMsg request_id resp => (onResponseEvent st request_id resp, [])
  | .discovered _ => (st, [])
  | .expired _ => (st, [])
  | .other => (st, [])

/-- The run_leader_with_http loop over a finite event trace. -/
def runLeaderHttp (gen : String → String → Except String String) (model : String)
    (st : LeaderHttpState) : List LEvent → LeaderHttpState × List LAction
  | [] => (st, [])
  | e :: es =>
    let r1 := leaderHttpStep gen model st e
    let r2 := runLeaderHttp gen model r1.1 es
    (r2.1, r1.2 ++ r2.2)

/-- Count of outbound requests originated by the Leader loop. -/
def lsends : List LAction → Nat
  | [] => 0
  | .sendRequest _ _ :: t => 1 + lsends t
  | _ :: t => lsends t

/-- Events the Subordinate loop selects over (src/main.rs lines 379-437). -/
inductive SubEvent where
  | discovered (peers : List Nat)
  | expired (peers : List Nat)
  | responseMsg (request_id : Nat) (resp : InferenceResponse String)
  | outboundFailure (request_id : Nat) (error : String)
  | other
deriving DecidableEq, Repr

/-- Observable effects of the Subordinate loop; `exit 0` models the
`return Ok(())` of run_subordinate, `exit 1` the `return Err(..)` that
makes the process exit with a non-zero status. -/
inductive SubAction where
  | sendRequest (peer : Nat) (req : InferenceRequest String)
  | printAnswer (text : String)
  | printFailure (msg : String)
  | exit (code : Nat)
deriving DecidableEq, Repr

/-- State of run_subordinate (src/main.rs lines 365-376): the prompt,
the `pending_request : Option<OutboundRequestId>`, the
`discovered_leaders` key set, a counter modelling the transport's fresh
OutboundRequestId allocation, and whether the loop has returned. -/
structure SubState where
  prompt : String
  pending_request : Option Nat
  discovered_leaders : List Nat
  nextId : Nat
  finished : Bool
deriving DecidableEq, Repr

/-- The state run_subordinate starts its loop with. -/
def initSub (prompt : String) : SubState :=
  { prompt := prompt, pending_request := none, discovered_leaders := []
    nextId := 0, finished := false }

/-- The body of the discovery for-loop for one peer (src/main.rs lines
385-404): skip peers already in `discovered_leaders`; otherwise insert
the peer and, only if `pending_request.is_none()`, send
`InferenceRequest { prompt, model: None }` to that peer and record the
returned request id. -/
def onPeerAppeared (st : SubState) (p : Nat) : SubState × List SubAction :=
  if st.discovered_leaders.contains p then (st, [])
  else
    let st1 := { st with discovered_leaders := p :: st.discovered_leaders }
    match st1.pending_request with
    | some _ => (st1, [])
    | none =>
      ({ st1 with pending_request := some st1.nextId, nextId := st1.nextId + 1 },
       [.sendRequest p { prompt := st.prompt, model := none }])

/-- The discovery for-loop over the whole peer list of one mdns event. -/
def onPeersList : SubState → List Nat → SubState × List SubAction
  | st, [] => (st, [])
  | st, p :: ps =>
    let r1 := onPeerAppeared st p
    let r2 := onPeersList r1.1 ps
    (r2.1, r1.2 ++ r2.2)

/-- One iteration of the run_subordinate loop (src/main.rs lines
379-437). The Response arm ignores the event's request_id entirely and
returns Ok; the OutboundFailure arm likewise matches any request_id and
returns Err. Expired removes the listed peers from
`discovered_leaders`. -/
def stepSub (st : SubState) : SubEvent → SubState × List SubAction
  | .discovered peers => onPeersList st peers
  | .expired peers =>
    ({ st with discovered_leaders :=
        st.discovered_leaders.filter (fun q => !peers.contains q) }, [])
  | .responseMsg _ resp =>
    ({ st with finished := true },
     [(if resp.success then .printAnswer resp.response
       else .printFailure (resp.error.getD "")), .exit 0])
  | .outboundFailure _ err =>
    ({ st with finished := true }, [.printFailure err, .exit 1])
  | .other => (st, [])

/-- The run_subordinate loop over a finite event trace: once an arm has
returned (`finished`), no further event is processed. -/
def runSub (st : SubState) : List SubEvent → SubState × List SubAction
  | [] => (st, [])
  | e :: es =>
    if st.finished then (st, [])
    else
      let r1 := stepSub st e
      let r2 := runSub r1.1 es
      (r2.1, r1.2 ++ r2.2)

/-- Count of inference requests dispatched in a Subordinate action list. -/
def countSends : List SubAction → Nat
  | [] => 0
  | .sendRequest _ _ :: t => 1 + countSends t
  | _ :: t => countSends t

/-- The first peer the Subordinate would meet in a trace: the head of
the first non-empty discovery event. -/
def firstDiscovered : List SubEvent → Option Nat
  | [] => none
  | .discovered (p :: _) :: _ => some p
  | _ :: es => firstDiscovered es

/-! Helper lemmas about the codec. -/

lemma length_toBE4 (n : Nat) : (toBE4 n).length = 4 := rfl

lemma fromBE4_toBE4 (n : Nat) (h : n < 2 ^ 32) : fromBE4 (toBE4 n) = n := by
  simp only [toBE4, fromBE4]
  omega

lemma readExact_exact (l1 l2 : List Byte) : readExact l1.length (l1 ++ l2) = some (l1, l2) := by
  simp [readExact, List.take_left, List.drop_left]

lemma hexVal_hexDig : ∀ x < 16, hexVal (hexDig x) = some x := by decide

lemma parseStrBodyF_quote (f : Nat) (rest : List Byte) :
    parseStrBodyF (f + 1) (34 :: rest) = some ([], rest) := rfl

lemma parseStrBodyF_esc34 (f : Nat) (rest : List Byte) :
    parseStrBodyF (f + 1) (92 :: 34 :: rest)
      = (parseStrBodyF f rest).map fun p => (34 :: p.1, p.2) := rfl

lemma parseStrBodyF_esc92 (f : Nat) (rest : List Byte) :
    parseStrBodyF (f + 1) (92 :: 92 :: rest)
      = (parseStrBodyF f rest).map fun p => (92 :: p.1, p.2) := rfl

lemma parseStrBodyF_esc98 (f : Nat) (rest : List Byte) :
    parseStrBodyF (f + 1) (92 :: 98 :: rest)
      = (parseStrBodyF f rest).map fun p => (8 :: p.1, p.2) := rfl

lemma parseStrBodyF_esc116 (f : Nat) (rest : List Byte) :
    parseStrBodyF (f + 1) (92 :: 116 :: rest)
      = (parseStrBodyF f rest).map fun p => (9 :: p.1, p.2) := rfl

lemma parseStrBodyF_esc110 (f : Nat) (rest : List Byte) :
    parseStrBodyF (f + 1) (92 :: 110 :: rest)
      = (parseStrBodyF f rest).map fun p => (10 :: p.1, p.2) := rfl

lemma parseStrBodyF_esc102 (f : Nat) (rest : List Byte) :
    parseStrBodyF (f + 1) (92 :: 102 :: rest)
      = (parseStrBodyF f rest).map fun p => (12 :: p.1, p.2) := rfl

lemma parseStrBodyF_esc114 (f : Nat) (rest : List Byte) :
    parseStrBodyF (f + 1) (92 :: 114 :: rest)
      = (parseStrBodyF f rest).map fun p => (13 :: p.1, p.2) := rfl

lemma parseStrBodyF_unicode (f b : Nat) (hb : b < 32) (rest : List Byte) :
    parseStrBodyF (f + 1) (92 :: 117 :: 48 :: 48 :: hexDig (b / 16) :: hexDig (b % 16) :: rest)
      = (parseStrBodyF f rest).map fun p => (b :: p.1, p.2) := by
  have h2 : hexVal (hexDig (b / 16)) = some (b / 16) := hexVal_hexDig _ (by omega)
  have h3 : hexVal (hexDig (b % 16)) = some (b % 16) := hexVal_hexDig _ (by omega)
  have hstep : parseStrBodyF (f + 1)
      (92 :: 117 :: 48 :: 48 :: hexDig (b / 16) :: hexDig (b % 16) :: rest)
      = (match hexVal 48, hexVal 48, hexVal (hexDig (b / 16)), hexVal (hexDig (b % 16)) with
        | some v1, some v2, some v3, some v4 =>
          let c := ((v1 * 16 + v2) * 16 + v3) * 16 + v4
          if c < 128 then (parseStrBodyF f rest).map fun p => (c :: p.1, p.2) else none
        | _, _, _, _ => none) := rfl
  rw [hstep, h2, h3, show hexVal 48 = some 0 from rfl]
  show (if ((0 * 16 + 0) * 16 + b / 16) * 16 + b % 16 < 128
    then (parseStrBodyF f rest).map
      fun p => ((((0 * 16 + 0) * 16 + b / 16) * 16 + b % 16) :: p.1, p.2)
    else none) = (parseStrBodyF f rest).map fun p => (b :: p.1, p.2)
  rw [show ((0 * 16 + 0) * 16 + b / 16) * 16 + b % 16 = b from by omega, if_pos (by omega)]

lemma parseStrBodyF_raw (f b : Nat) (h34 : b ≠ 34) (h92 : b ≠ 92) (hge : ¬ b < 32)
    (rest : List Byte) :
    parseStrBodyF (f + 1) (b :: rest) = (parseStrBodyF f rest).map fun p => (b :: p.1, p.2) := by
  show (if b = 34 then some ([], rest)
    else if b = 92 then
      match rest with
      | [] => none
      | e :: rest2 =>
        if e = 34 then (parseStrBodyF f rest2).map fun p => (34 :: p.1, p.2)
        else if e = 92 then (parseStrBodyF f rest2).map fun p => (92 :: p.1, p.2)
        else if e = 47 then (parseStrBodyF f rest2).map fun p => (47 :: p.1, p.2)
        else if e = 98 then (parseStrBodyF f rest2).map fun p => (8 :: p.1, p.2)
        else if e = 116 then (parseStrBodyF f rest2).map fun p => (9 :: p.1, p.2)
        else if e = 110 then (parseStrBodyF f rest2).map fun p => (10 :: p.1, p.2)
        else if e = 102 then (parseStrBodyF f rest2).map fun p => (12 :: p.1, p.2)
        else if e = 114 then (parseStrBodyF f rest2).map fun p => (13 :: p.1, p.2)
        else if e = 117 then
          match rest2 with
          | h1 :: h2 :: h3 :: h4 :: rest3 =>
            match hexVal h1, hexVal h2, hexVal h3, hexVal h4 with
            | some v1, some v2, some v3, some v4 =>
              let c := ((v1 * 16 + v2) * 16 + v3) * 16 + v4
              if c < 128 then (parseStrBodyF f rest3).map fun p => (c :: p.1, p.2) else none
            | _, _, _, _ => none
          | _ => none
        else none
    else if b < 32 then none
    else (parseStrBodyF f rest).map fun p => (b :: p.1, p.2))
    = (parseStrBodyF f rest).map fun p => (b :: p.1, p.2)
  rw [if_neg h34, if_neg h92, if_neg hge]

lemma parseStrBodyF_escapeStr :
    ∀ (s rest : List Byte) (fuel : Nat), s.length < fuel →
      parseStrBodyF fuel (escapeStr s ++ 34 :: rest) = some (s, rest) := by
  intro s
  induction s with
  | nil =>
    intro rest fuel hf
    obtain ⟨f, rfl⟩ : ∃ f, fuel = f + 1 := ⟨fuel - 1, by omega⟩
    exact parseStrBodyF_quote f rest
  | cons b t ih =>
    intro rest fuel hf
    obtain ⟨f, rfl⟩ : ∃ f, fuel = f + 1 := ⟨fuel - 1, by omega⟩
    have hft : t.length < f := by simp at hf; omega
    rw [show escapeStr (b :: t) = escapeByte b ++ escapeStr t from rfl, List.append_assoc]
    by_cases h34 : b = 34
    · subst h34
      rw [show escapeByte 34 = [92, 34] from rfl]
      simp only [List.cons_append, List.nil_append]
      rw [parseStrBodyF_esc34 f _, ih _ _ hft]
      rfl
    by_cases h92 : b = 92
    · subst h92
      rw [show escapeByte 92 = [92, 92] from rfl]
      simp only [List.cons_append, List.nil_append]
      rw [parseStrBodyF_esc92 f _, ih _ _ hft]
      rfl
    by_cases h8 : b = 8
    · subst h8
      rw [show escapeByte 8 = [92, 98] from rfl]
      simp only [List.cons_append, List.nil_append]
      rw [parseStrBodyF_esc98 f _, ih _ _ hft]
      rfl
    by_cases h9 : b = 9
    · subst h9
      rw [show escapeByte 9 = [92, 116] from rfl]
      simp only [List.cons_append, List.nil_append]
      rw [parseStrBodyF_esc116 f _, ih _ _ hft]
      rfl
    by_cases h10 : b = 10
    · subst h10
      rw [show escapeByte 10 = [92, 110] from rfl]
      simp only [List.cons_append, List.nil_append]
      rw [parseStrBodyF_esc110 f _, ih _ _ hft]
      rfl
    by_cases h12 : b = 12
    · subst h12
      rw [show escapeByte 12 = [92, 102] from rfl]
      simp only [List.cons_append, List.nil_append]
      rw [parseStrBodyF_esc102 f _, ih _ _ hft]
      rfl
    by_cases h13 : b = 13
    · subst h13
      rw [show escapeByte 13 = [92, 114] from rfl]
      simp only [List.cons_append, List.nil_append]
      rw [parseStrBodyF_esc114 f _, ih _ _ hft]
      rfl
    by_cases hlt : b < 32
    · have he : escapeByte b = [92, 117, 48, 48, hexDig (b / 16), hexDig (b % 16)] := by
        unfold escapeByte
        rw [if_neg h34, if_neg h92, if_neg h8, if_neg h9, if_neg h10, if_neg h12,
          if_neg h13, if_pos hlt]
      rw [he]
      simp only [List.cons_append, List.nil_append]
      rw [parseStrBodyF_unicode f b hlt, ih _ _ hft]
      rfl
    · have he : escapeByte b = [b] := by
        unfold escapeByte
        rw [if_neg h34, if_neg h92, if_neg h8, if_neg h9, if_neg h10, if_neg h12,
          if_neg h13, if_neg hlt]
      rw [he]
      simp only [List.cons_append, List.nil_append]
      rw [parseStrBodyF_raw f b h34 h92 hlt, ih _ _ hft]
      rfl

lemma length_escapeStr_ge (s : List Byte) : s.length ≤ (escapeStr s).length := by
  induction s with
  | nil => simp [escapeStr]
  | cons b t ih =>
    have : 1 ≤ (escapeByte b).length := by
      unfold escapeByte
      repeat' split
      all_goals simp
    simp only [escapeStr, List.length_append, List.length_cons]
    omega

lemma parseStrBody_escapeStr (s rest : List Byte) :
    parseStrBody (escapeStr s ++ 34 :: rest) = some (s, rest) := by
  have h := length_escapeStr_ge s
  refine parseStrBodyF_escapeStr s rest _ ?_
  simp only [List.length_append, List.length_cons]
  omega

lemma parseJStr_jstr (s rest : List Byte) :
    parseJStr (jstr s ++ rest) = some (s, rest) := by
  show parseJStr ((34 :: (escapeStr s ++ [34])) ++ rest) = some (s, rest)
  simp only [List.cons_append, List.append_assoc, List.singleton_append]
  simp only [parseJStr, if_pos rfl]
  exact parseStrBody_escapeStr s rest

lemma dropLit_self (pat rest : List Byte) : dropLit pat (pat ++ rest) = some rest := by
  simp [dropLit, List.take_left, List.drop_left]

lemma dropLit_refl (pat : List Byte) : dropLit pat pat = some [] := by
  simp [dropLit]

lemma dropLit_null_jstr (m rest : List Byte) :
    dropLit [110, 117, 108, 108] (jstr m ++ rest) = none := by
  simp [dropLit, jstr]

lemma dropLit_true_false (rest : List Byte) :
    dropLit [116, 114, 117, 101] ([102, 97, 108, 115, 101] ++ rest) = none := by
  simp [dropLit]

lemma parseRequest_serializeRequest (r : InferenceRequest (List Byte)) :
    parseRequest (serializeRequest r) = some r := by
  obtain ⟨p, mo⟩ := r
  cases mo with
  | none =>
    simp only [serializeRequest, parseRequest, List.append_assoc, dropLit_self, parseJStr_jstr,
      dropLit_refl, Option.bind_eq_bind, Option.some_bind]
    rfl
  | some m =>
    simp only [serializeRequest, parseRequest, List.append_assoc, dropLit_self, parseJStr_jstr,
      dropLit_refl, dropLit_null_jstr, Option.bind_eq_bind, Option.some_bind]
    rfl

lemma parseResponse_serializeResponse (r : InferenceResponse (List Byte)) :
    parseResponse (serializeResponse r) = some r := by
  obtain ⟨t, s, e⟩ := r
  cases s <;> cases e <;>
    simp only [serializeResponse, parseResponse, List.append_assoc, Bool.false_eq_true,
      if_true, if_false, dropLit_self, parseJStr_jstr, dropLit_refl, dropLit_null_jstr,
      dropLit_true_false, Option.bind_eq_bind, Option.some_bind]

lemma writtenBytes_write_request (req : InferenceRequest (List Byte)) :
    writtenBytes (write_request req)
      = toBE4 (u32 (serializeRequest req).length) ++ serializeRequest req := by
  simp [write_request, writtenBytes]

lemma writtenBytes_write_response (res : InferenceResponse (List Byte)) :
    writtenBytes (write_response res)
      = toBE4 (u32 (serializeResponse res).length) ++ serializeResponse res := by
  simp [write_response, writtenBytes]

lemma readExact_frame (l1 l2 : List Byte) (h : l1.length = 4) :
    readExact 4 (l1 ++ l2) = some (l1, l2) := by
  have h0 := readExact_exact l1 l2
  rwa [h] at h0

lemma readExact_all (l : List Byte) : readExact l.length l = some (l, []) := by
  simpa using readExact_exact l []

lemma read_request_write_request (req : InferenceRequest (List Byte))
    (h : (serializeRequest req).length < 2 ^ 32) :
    read_request (writtenBytes (write_request req)) = .ok req := by
  rw [writtenBytes_write_request, show u32 (serializeRequest req).length
    = (serializeRequest req).length from Nat.mod_eq_of_lt h]
  have h1 := readExact_frame (toBE4 (serializeRequest req).length) (serializeRequest req)
    (length_toBE4 _)
  simp only [read_request, h1, fromBE4_toBE4 _ h, readExact_all,
    parseRequest_serializeRequest]

lemma read_response_write_response (res : InferenceResponse (List Byte))
    (h : (serializeResponse res).length < 2 ^ 32) :
    read_response (writtenBytes (write_response res)) = .ok res := by
  rw [writtenBytes_write_response, show u32 (serializeResponse res).length
    = (serializeResponse res).length from Nat.mod_eq_of_lt h]
  have h1 := readExact_frame (toBE4 (serializeResponse res).length) (serializeResponse res)
    (length_toBE4 _)
  simp only [read_response, h1, fromBE4_toBE4 _ h, readExact_all,
    parseResponse_serializeResponse]

lemma escapeStr_replicate97 (n : Nat) :
    escapeStr (List.replicate n 97) = List.replicate n 97 := by
  induction n with
  | zero => rfl
  | succ k ih =>
    simp [List.replicate_succ, escapeStr, ih, show escapeByte 97 = [97] from rfl]

lemma serializeRequest_bigReq :
    serializeRequest bigReq
      = [123, 34, 112, 114, 111, 109, 112, 116, 34, 58, 34] ++
        (List.replicate (2 ^ 32) 97 ++
          [34, 44, 34, 109, 111, 100, 101, 108, 34, 58, 110, 117, 108, 108, 125]) := by
  have key : ∀ R : List Byte, escapeStr R = R →
      [123, 34, 112, 114, 111, 109, 112, 116, 34, 58] ++
        (34 :: (escapeStr R ++ [34])) ++
        [44, 34, 109, 111, 100, 101, 108, 34, 58] ++ [110, 117, 108, 108] ++ [125]
      = [123, 34, 112, 114, 111, 109, 112, 116, 34, 58, 34] ++
          (R ++ [34, 44, 34, 109, 111, 100, 101, 108, 34, 58, 110, 117, 108, 108, 125]) := by
    intro R hR
    rw [hR]
    simp only [List.append_assoc, List.cons_append, List.nil_append]
  exact key (List.replicate (2 ^ 32) 97) (escapeStr_replicate97 _)

lemma length_serializeRequest_bigReq : (serializeRequest bigReq).length = 2 ^ 32 + 26 := by
  rw [serializeRequest_bigReq]
  rw [List.length_append, List.length_append, List.length_replicate]
  norm_num

lemma take26_serializeRequest_bigReq :
    (serializeRequest bigReq).take 26
      = [123, 34, 112, 114, 111, 109, 112, 116, 34, 58] ++ (34 :: List.replicate 15 97) := by
  rw [serializeRequest_bigReq]
  rw [show (26 : Nat)
    = ([123, 34, 112, 114, 111, 109, 112, 116, 34, 58, 34] : List Byte).length + 15 from rfl]
  rw [List.take_append]
  rw [List.take_append_of_le_length (by rw [List.length_replicate]; norm_num)]
  rw [List.take_replicate, show min 15 (2 ^ 32) = 15 from by norm_num]
  decide

lemma parseStrBody_replicate97_15 : parseStrBody (List.replicate 15 97) = none := by decide

lemma parseRequest_take26_bigReq : parseRequest ((serializeRequest bigReq).take 26) = none := by
  rw [take26_serializeRequest_bigReq]
  simp only [parseRequest, dropLit_self, Option.bind_eq_bind, Option.some_bind]
  rw [show parseJStr (34 :: List.replicate 15 97)
    = parseStrBody (List.replicate 15 97) from rfl, parseStrBody_replicate97_15]
  rfl

lemma read_request_malformed (lb payload : List Byte) (h4 : lb.length = 4)
    (hlen : fromBE4 lb ≤ payload.length)
    (hp : parseRequest (payload.take (fromBE4 lb)) = none) :
    read_request (lb ++ payload) = .error .malformed := by
  have h1 := readExact_frame lb payload h4
  have h2 : readExact (fromBE4 lb) payload
      = some (payload.take (fromBE4 lb), payload.drop (fromBE4 lb)) := by
    unfold readExact
    rw [if_pos hlen]
  simp only [read_request, h1, h2, hp]

lemma read_response_malformed (lb payload : List Byte) (h4 : lb.length = 4)
    (hlen : fromBE4 lb ≤ payload.length)
    (hp : parseResponse (payload.take (fromBE4 lb)) = none) :
    read_response (lb ++ payload) = .error .malformed := by
  have h1 := readExact_frame lb payload h4
  have h2 : readExact (fromBE4 lb) payload
      = some (payload.take (fromBE4 lb), payload.drop (fromBE4 lb)) := by
    unfold readExact
    rw [if_pos hlen]
  simp only [read_response, h1, h2, hp]

lemma read_request_truncated (lb payload : List Byte) (h4 : lb.length = 4)
    (hlen : payload.length < fromBE4 lb) :
    read_request (lb ++ payload) = .error .truncated := by
  have h1 := readExact_frame lb payload h4
  have h2 : readExact (fromBE4 lb) payload = none := by
    unfold readExact
    rw [if_neg (by omega)]
  simp only [read_request, h1, h2]

lemma read_response_truncated (lb payload : List Byte) (h4 : lb.length = 4)
    (hlen : payload.length < fromBE4 lb) :
    read_response (lb ++ payload) = .error .truncated := by
  have h1 := readExact_frame lb payload h4
  have h2 : readExact (fromBE4 lb) payload = none := by
    unfold readExact
    rw [if_neg (by omega)]
  simp only [read_response, h1, h2]

lemma read_request_bigReq :
    read_request (writtenBytes (write_request bigReq)) = .error .malformed := by
  rw [writtenBytes_write_request,
    show u32 (serializeRequest bigReq).length = 26 from by
      rw [length_serializeRequest_bigReq]; norm_num [u32]]
  refine read_request_malformed _ _ (length_toBE4 _) ?_ ?_
  · rw [show fromBE4 (toBE4 26) = 26 from rfl, length_serializeRequest_bigReq]
    omega
  · rw [show fromBE4 (toBE4 26) = 26 from rfl]
    exact parseRequest_take26_bigReq

/-- C1 (amended): for every InferenceRequest and every InferenceResponse
whose serialized payload is shorter than 2^32 bytes, decoding the frame
produced by encoding (4-byte big-endian length prefix followed by the
serialized payload) yields the message back, in both the request and the
response direction of the codec. The bound is forced by the
`data.len() as u32` cast; see the counterexample. -/
theorem c1_decode_encode_roundtrip :
    (∀ req : InferenceRequest (List Byte), (serializeRequest req).length < 2 ^ 32 →
      read_request (writtenBytes (write_request req)) = .ok req) ∧
    (∀ res : InferenceResponse (List Byte), (serializeResponse res).length < 2 ^ 32 →
      read_response (writtenBytes (write_response res)) = .ok res) :=
  ⟨read_request_write_request, read_response_write_response⟩

/-- C1 witness: the round trip evaluated on concrete small messages. -/
theorem c1_decode_encode_roundtrip_witness :
    read_request (writtenBytes (write_request ⟨[104, 105], some [109]⟩))
      = .ok ⟨[104, 105], some [109]⟩ ∧
    read_response (writtenBytes (write_response ⟨[52, 10, 34], true, none⟩))
      = .ok ⟨[52, 10, 34], true, none⟩ :=
  ⟨c1_decode_encode_roundtrip.1 _ (by decide), c1_decode_encode_roundtrip.2 _ (by decide)⟩

/-- C1 counterexample: for the request whose prompt is 2^32 bytes of the
letter a, the `as u32` cast wraps the length prefix to 26, so decoding
the encoded frame reads a 26-byte buffer that fails deserialization:
decode(encode(m)) is a Malformed error, not m. -/
theorem c1_counterexample :
    read_request (writtenBytes (write_request bigReq)) = .error .malformed ∧
    read_request (writtenBytes (write_request bigReq)) ≠ .ok bigReq := by
  refine ⟨read_request_bigReq, ?_⟩
  rw [read_request_bigReq]
  intro hc
  exact Except.noConfusion hc

/-- C8: a stream that ends after the 4-byte length prefix but before the
declared number of payload bytes decodes to the Truncated error in both
directions, and a full-length payload that fails structured
deserialization decodes to the distinct Malformed error. -/
theorem c8_truncation_vs_malformed :
    (∀ lb payload : List Byte, lb.length = 4 → payload.length < fromBE4 lb →
      read_request (lb ++ payload) = .error .truncated ∧
      read_response (lb ++ payload) = .error .truncated) ∧
    (∀ lb payload : List Byte, lb.length = 4 → fromBE4 lb ≤ payload.length →
      parseRequest (payload.take (fromBE4 lb)) = none →
      read_request (lb ++ payload) = .error .malformed) ∧
    (∀ lb payload : List Byte, lb.length = 4 → fromBE4 lb ≤ payload.length →
      parseResponse (payload.take (fromBE4 lb)) = none →
      read_response (lb ++ payload) = .error .malformed) :=
  ⟨fun lb payload h4 hlen =>
    ⟨read_request_truncated lb payload h4 hlen, read_response_truncated lb payload h4 hlen⟩,
   read_request_malformed, read_response_malformed⟩

/-- C8 witness: a frame declaring 5 bytes whose stream ends after 2 is
Truncated; a full-length 1-byte garbage payload is Malformed. -/
theorem c8_truncation_vs_malformed_witness :
    read_request ([0, 0, 0, 5] ++ [1, 2]) = .error .truncated ∧
    read_response ([0, 0, 0, 5] ++ [1, 2]) = .error .truncated ∧
    read_request ([0, 0, 0, 1] ++ [120]) = .error .malformed ∧
    read_response ([0, 0, 0, 1] ++ [120]) = .error .malformed :=
  ⟨(c8_truncation_vs_malformed.1 [0, 0, 0, 5] [1, 2] (by decide) (by decide)).1,
   (c8_truncation_vs_malformed.1 [0, 0, 0, 5] [1, 2] (by decide) (by decide)).2,
   c8_truncation_vs_malformed.2.1 [0, 0, 0, 1] [120] (by decide) (by decide) (by decide),
   c8_truncation_vs_malformed.2.2 [0, 0, 0, 1] [120] (by decide) (by decide) (by decide)⟩

/-- C9 (amended): for every message whose serialized payload is shorter
than 2^32 bytes, the writer emits exactly a 4-byte big-endian length
prefix equal to the payload byte count, then the payload, then closes
the write half, identically for requests and responses; for payloads of
2^32 bytes or more the prefix is the byte count modulo 2^32 (see the
counterexample). -/
theorem c9_frame_layout :
    (∀ req : InferenceRequest (List Byte), (serializeRequest req).length < 2 ^ 32 →
      write_request req
        = [WAction.write (toBE4 (serializeRequest req).length),
           WAction.write (serializeRequest req), WAction.close] ∧
      (toBE4 (serializeRequest req).length).length = 4 ∧
      fromBE4 (toBE4 (serializeRequest req).length) = (serializeRequest req).length ∧
      writtenBytes (write_request req)
        = toBE4 (serializeRequest req).length ++ serializeRequest req) ∧
    (∀ res : InferenceResponse (List Byte), (serializeResponse res).length < 2 ^ 32 →
      write_response res
        = [WAction.write (toBE4 (serializeResponse res).length),
           WAction.write (serializeResponse res), WAction.close] ∧
      (toBE4 (serializeResponse res).length).length = 4 ∧
      fromBE4 (toBE4 (serializeResponse res).length) = (serializeResponse res).length ∧
      writtenBytes (write_response res)
        = toBE4 (serializeResponse res).length ++ serializeResponse res) := by
  constructor
  · intro req h
    have hu : u32 (serializeRequest req).length = (serializeRequest req).length :=
      Nat.mod_eq_of_lt h
    refine ⟨?_, length_toBE4 _, fromBE4_toBE4 _ h, ?_⟩
    · rw [show write_request req
        = [WAction.write (toBE4 (u32 (serializeRequest req).length)),
           WAction.write (serializeRequest req), WAction.close] from rfl, hu]
    · rw [writtenBytes_write_request, hu]
  · intro res h
    have hu : u32 (serializeResponse res).length = (serializeResponse res).length :=
      Nat.mod_eq_of_lt h
    refine ⟨?_, length_toBE4 _, fromBE4_toBE4 _ h, ?_⟩
    · rw [show write_response res
        = [WAction.write (toBE4 (u32 (serializeResponse res).length)),
           WAction.write (serializeResponse res), WAction.close] from rfl, hu]
    · rw [writtenBytes_write_response, hu]

/-- C9 witness: the frame layout evaluated on concrete small messages. -/
theorem c9_frame_layout_witness :
    write_request ⟨[104, 105], none⟩
      = [WAction.write (toBE4 (serializeRequest ⟨[104, 105], none⟩).length),
         WAction.write (serializeRequest ⟨[104, 105], none⟩), WAction.close] ∧
    write_response ⟨[], false, some [101]⟩
      = [WAction.write (toBE4 (serializeResponse ⟨[], false, some [101]⟩).length),
         WAction.write (serializeResponse ⟨[], false, some [101]⟩), WAction.close] :=
  ⟨(c9_frame_layout.1 _ (by decide)).1, (c9_frame_layout.2 _ (by decide)).1⟩

/-- C9 counterexample: for the request whose serialized payload is
2^32 + 26 bytes, the emitted 4-byte prefix encodes 26, which is not the
payload byte count - the prefix equals the count only modulo 2^32. -/
theorem c9_counterexample :
    (serializeRequest bigReq).length = 2 ^ 32 + 26 ∧
    write_request bigReq
      = [WAction.write [0, 0, 0, 26], WAction.write (serializeRequest bigReq),
         WAction.close] ∧
    fromBE4 [0, 0, 0, 26] ≠ (serializeRequest bigReq).length := by
  refine ⟨length_serializeRequest_bigReq, ?_, ?_⟩
  · rw [show write_request bigReq
      = [WAction.write (toBE4 (u32 (serializeRequest bigReq).length)),
         WAction.write (serializeRequest bigReq), WAction.close] from rfl]
    rw [show u32 (serializeRequest bigReq).length = 26 from by
      rw [length_serializeRequest_bigReq]; norm_num [u32]]
    rfl
  · rw [length_serializeRequest_bigReq, show fromBE4 [0, 0, 0, 26] = 26 from rfl]
    omega

lemma onResponseEvent_miss (st : LeaderHttpState) (rid : Nat) (C : InferenceResponse String)
    (h : lookupKey st.pending_requests rid = none) : onResponseEvent st rid C = st := by
  unfold onResponseEvent
  rw [h]

/-- C2: register a response slot for a request id that has no pending
entry, then resolve it twice: the first resolve removes the entry and
delivers exactly the first outcome to the slot, the second resolve finds
no entry and changes nothing; and any Response event whose request_id
has no pending entry leaves the state untouched (silently dropped). -/
theorem c2_correlator_exactly_once (st : LeaderHttpState) (rid slot : Nat)
    (A B : InferenceResponse String)
    (h : lookupKey st.pending_requests rid = none) :
    (onResponseEvent (registerPending st rid slot) rid A).writes
        = (slot, mkResult A) :: st.writes ∧
    (onResponseEvent (registerPending st rid slot) rid A).pending_requests
        = st.pending_requests ∧
    lookupKey (onResponseEvent (registerPending st rid slot) rid A).pending_requests rid
        = none ∧
    onResponseEvent (onResponseEvent (registerPending st rid slot) rid A) rid B
        = onResponseEvent (registerPending st rid slot) rid A ∧
    (∀ (st2 : LeaderHttpState) (rid2 : Nat) (C : InferenceResponse String),
      lookupKey st2.pending_requests rid2 = none → onResponseEvent st2 rid2 C = st2) := by
  have hlook : lookupKey (registerPending st rid slot).pending_requests rid = some slot := by
    unfold registerPending lookupKey
    rw [if_pos rfl]
  have hrem : removeKey (registerPending st rid slot).pending_requests rid
      = st.pending_requests := by
    unfold registerPending removeKey
    rw [if_pos rfl]
  have hres : onResponseEvent (registerPending st rid slot) rid A
      = { pending_requests := st.pending_requests,
          writes := (slot, mkResult A) :: st.writes } := by
    simp only [onResponseEvent, hlook, hrem,
      show (registerPending st rid slot).writes = st.writes from rfl]
  refine ⟨by rw [hres], by rw [hres], by rw [hres]; exact h, ?_, onResponseEvent_miss⟩
  rw [hres]
  exact onResponseEvent_miss _ _ _ h

/-- C2 witness: the exactly-once behaviour at a concrete registration. -/
theorem c2_correlator_exactly_once_witness :
    (onResponseEvent (registerPending ⟨[], []⟩ 1 7) 1 ⟨"a", true, none⟩).writes
      = [(7, Except.ok "a")] ∧
    onResponseEvent (onResponseEvent (registerPending ⟨[], []⟩ 1 7) 1 ⟨"a", true, none⟩) 1
        ⟨"b", false, some "x"⟩
      = onResponseEvent (registerPending ⟨[], []⟩ 1 7) 1 ⟨"a", true, none⟩ := by
  have h := c2_correlator_exactly_once ⟨[], []⟩ 1 7 ⟨"a", true, none⟩ ⟨"b", false, some "x"⟩ rfl
  exact ⟨by rw [h.1]; rfl, h.2.2.2.1⟩

/-- C3: on an inbound request the Leader uses request.model when present
and the configured default otherwise; a backend success t is answered
with (t, success, no error) and a backend failure e with (empty text,
failure, error e). -/
theorem c3_leader_reply (gen : String → String → Except String String) (model : String)
    (request : InferenceRequest String) :
    (request.model = none →
      (∀ t, gen request.prompt model = .ok t →
        handleRequest gen model request = ⟨t, true, none⟩) ∧
      (∀ e, gen request.prompt model = .error e →
        handleRequest gen model request = ⟨"", false, some e⟩)) ∧
    (∀ m, request.model = some m →
      (∀ t, gen request.prompt m = .ok t →
        handleRequest gen model request = ⟨t, true, none⟩) ∧
      (∀ e, gen request.prompt m = .error e →
        handleRequest gen model request = ⟨"", false, some e⟩)) := by
  constructor
  · intro hm
    constructor
    · intro t ht
      simp only [handleRequest, hm, Option.getD_none, ht]
    · intro e he
      simp only [handleRequest, hm, Option.getD_none, he]
  · intro m hm
    constructor
    · intro t ht
      simp only [handleRequest, hm, Option.getD_some, ht]
    · intro e he
      simp only [handleRequest, hm, Option.getD_some, he]

/-- C3 witness: the spec's two Leader scenarios at concrete inputs. -/
theorem c3_leader_reply_witness :
    handleRequest (fun _ _ => Except.ok "4") "m" ⟨"2+2?", none⟩ = ⟨"4", true, none⟩ ∧
    handleRequest (fun _ _ => Except.error "connection refused") "m" ⟨"hi", none⟩
      = ⟨"", false, some "connection refused"⟩ :=
  ⟨((c3_leader_reply _ "m" ⟨"2+2?", none⟩).1 rfl).1 "4" rfl,
   ((c3_leader_reply _ "m" ⟨"hi", none⟩).1 rfl).2 "connection refused" rfl⟩

/-- C4 counterexample: with a peer discovered, an ask command still
resolves with the fixed web-UI failure string (which is not
"no peer available"), dispatches no request and registers nothing. -/
theorem c4_counterexample :
    (runLeaderHttp (fun _ _ => Except.error "") "m" ⟨[], []⟩
        [LEvent.discovered [7], LEvent.command "hi" 0]).1.writes
      = [(0, Except.error webUiErr)] ∧
    (runLeaderHttp (fun _ _ => Except.error "") "m" ⟨[], []⟩
        [LEvent.discovered [7], LEvent.command "hi" 0]).2 = [] ∧
    (runLeaderHttp (fun _ _ => Except.error "") "m" ⟨[], []⟩
        [LEvent.discovered [7], LEvent.command "hi" 0]).1.pending_requests = [] ∧
    webUiErr ≠ "no peer available" :=
  ⟨rfl, rfl, rfl, by decide⟩

/-- C4 (amended): every command-surface ask is resolved immediately with
the fixed failure string of the unimplemented web-UI path, whether or
not peers are known; the loop leaves pending_requests untouched on an
ask and never dispatches an InferenceRequest on any event. -/
theorem c4_ask_always_fails (gen : String → String → Except String String) (model : String)
    (st : LeaderHttpState) (prompt : String) (responder : Nat) :
    leaderHttpStep gen model st (LEvent.command prompt responder)
      = ({ st with writes := (responder, Except.error webUiErr) :: st.writes }, []) ∧
    (∀ e : LEvent, lsends (leaderHttpStep gen model st e).2 = 0) := by
  refine ⟨rfl, ?_⟩
  intro e
  cases e <;> rfl

/-- C5: every response the Leader constructs satisfies the invariant:
error is present iff success is false; on success the error is absent
and the text is the backend output; on failure the text is empty and
the error carries the backend message. -/
theorem c5_response_invariant (gen : String → String → Except String String) (model : String)
    (request : InferenceRequest String) :
    ((handleRequest gen model request).error.isSome
        ↔ (handleRequest gen model request).success = false) ∧
    ((handleRequest gen model request).success = true →
      (handleRequest gen model request).error = none ∧
      gen request.prompt (request.model.getD model)
        = .ok (handleRequest gen model request).response) ∧
    ((handleRequest gen model request).success = false →
      (handleRequest gen model request).response = "" ∧
      ∃ e, (handleRequest gen model request).error = some e ∧
        gen request.prompt (request.model.getD model) = .error e) := by
  cases hg : gen request.prompt (request.model.getD model) with
  | ok t => simp [handleRequest, hg]
  | error e => simp [handleRequest, hg]

/-- C5 witness: the invariant evaluated at a concrete success and a
concrete failure. -/
theorem c5_response_invariant_witness :
    (handleRequest (fun _ _ => Except.ok "y") "m" ⟨"p", none⟩).error = none ∧
    (handleRequest (fun _ _ => Except.error "bad") "m" ⟨"p", none⟩).response = "" :=
  ⟨((c5_response_invariant (fun _ _ => Except.ok "y") "m" ⟨"p", none⟩).2.1 rfl).1,
   ((c5_response_invariant (fun _ _ => Except.error "bad") "m" ⟨"p", none⟩).2.2 rfl).1⟩

/-- C7: on an inbound Response the Subordinate prints the answer when
success and the error otherwise and returns Ok (exit status 0 even on
success = false); on an OutboundFailure it prints the transport error
and returns Err (non-zero exit status). -/
theorem c7_subordinate_exit (st : SubState) (rid : Nat)
    (resp : InferenceResponse String) (err : String) :
    (resp.success = true →
      stepSub st (SubEvent.responseMsg rid resp)
        = ({ st with finished := true },
           [SubAction.printAnswer resp.response, SubAction.exit 0])) ∧
    (resp.success = false →
      stepSub st (SubEvent.responseMsg rid resp)
        = ({ st with finished := true },
           [SubAction.printFailure (resp.error.getD ""), SubAction.exit 0])) ∧
    stepSub st (SubEvent.outboundFailure rid err)
      = ({ st with finished := true }, [SubAction.printFailure err, SubAction.exit 1]) := by
  refine ⟨?_, ?_, rfl⟩
  · intro hs
    simp [stepSub, hs]
  · intro hs
    simp [stepSub, hs]

/-- C7 witness: the two Response cases at concrete inputs. -/
theorem c7_subordinate_exit_witness :
    stepSub (initSub "p") (SubEvent.responseMsg 0 ⟨"ans", true, none⟩)
      = ({ initSub "p" with finished := true },
         [SubAction.printAnswer "ans", SubAction.exit 0]) ∧
    stepSub (initSub "p") (SubEvent.responseMsg 0 ⟨"", false, some "e"⟩)
      = ({ initSub "p" with finished := true },
         [SubAction.printFailure "e", SubAction.exit 0]) :=
  ⟨(c7_subordinate_exit (initSub "p") 0 ⟨"ans", true, none⟩ "x").1 rfl,
   (c7_subordinate_exit (initSub "p") 0 ⟨"", false, some "e"⟩ "x").2.1 rfl⟩

lemma countSends_append (a b : List SubAction) :
    countSends (a ++ b) = countSends a + countSends b := by
  induction a with
  | nil => simp [countSends]
  | cons x t ih =>
    cases x with
    | sendRequest p r => simp [countSends, ih]; omega
    | printAnswer s => simp [countSends, ih]
    | printFailure s => simp [countSends, ih]
    | exit c => simp [countSends, ih]

lemma countSends_zero_not_mem (l : List SubAction) (h : countSends l = 0)
    (p : Nat) (r : InferenceRequest String) : SubAction.sendRequest p r ∉ l := by
  induction l with
  | nil => simp
  | cons x t ih =>
    cases x with
    | sendRequest q r2 => simp [countSends] at h
    | printAnswer s =>
      simp only [countSends] at h
      simp [ih h]
    | printFailure s =>
      simp only [countSends] at h
      simp [ih h]
    | exit c =>
      simp only [countSends] at h
      simp [ih h]

lemma onPeerAppeared_isSome (st : SubState) (p : Nat) (h : st.pending_request.isSome) :
    (onPeerAppeared st p).2 = [] ∧
    (onPeerAppeared st p).1.pending_request = st.pending_request ∧
    (onPeerAppeared st p).1.prompt = st.prompt ∧
    (onPeerAppeared st p).1.finished = st.finished := by
  obtain ⟨r, hr⟩ := Option.isSome_iff_exists.mp h
  by_cases hc : p ∈ st.discovered_leaders <;> simp [onPeerAppeared, hc, hr]

lemma onPeersList_isSome (ps : List Nat) (st : SubState) (h : st.pending_request.isSome) :
    (onPeersList st ps).2 = [] ∧
    (onPeersList st ps).1.pending_request = st.pending_request ∧
    (onPeersList st ps).1.prompt = st.prompt ∧
    (onPeersList st ps).1.finished = st.finished := by
  induction ps generalizing st with
  | nil => simp [onPeersList]
  | cons p ps ih =>
    obtain ⟨ha, hb, hc, hd⟩ := onPeerAppeared_isSome st p h
    obtain ⟨ia, ib, ic, id⟩ := ih (onPeerAppeared st p).1 (by rw [hb]; exact h)
    refine ⟨?_, ?_, ?_, ?_⟩ <;> simp [onPeersList, ha, hb, hc, hd, ia, ib, ic, id]

lemma stepSub_isSome (e : SubEvent) (st : SubState) (h : st.pending_request.isSome) :
    countSends (stepSub st e).2 = 0 ∧
    (stepSub st e).1.pending_request = st.pending_request ∧
    (stepSub st e).1.prompt = st.prompt := by
  cases e with
  | discovered ps =>
    obtain ⟨ha, hb, hc, _⟩ := onPeersList_isSome ps st h
    exact ⟨by simp [stepSub, ha, countSends], by simp [stepSub, hb], by simp [stepSub, hc]⟩
  | expired ps => exact ⟨rfl, rfl, rfl⟩
  | responseMsg rid resp =>
    refine ⟨?_, rfl, rfl⟩
    by_cases hs : resp.success <;> simp [stepSub, hs, countSends]
  | outboundFailure rid err => exact ⟨rfl, rfl, rfl⟩
  | other => exact ⟨rfl, rfl, rfl⟩

lemma runSub_isSome (evts : List SubEvent) (st : SubState) (h : st.pending_request.isSome) :
    countSends (runSub st evts).2 = 0 := by
  induction evts generalizing st with
  | nil => rfl
  | cons e es ih =>
    by_cases hf : st.finished
    · simp [runSub, hf, countSends]
    · obtain ⟨ha, hb, _⟩ := stepSub_isSome e st h
      have := ih (stepSub st e).1 (by rw [hb]; exact h)
      simp [runSub, hf, countSends_append, ha, this]

lemma runSub_finished (evts : List SubEvent) (st : SubState) (h : st.finished = true) :
    runSub st evts = (st, []) := by
  cases evts with
  | nil => rfl
  | cons e es => simp [runSub, h]

lemma onPeerAppeared_none (st : SubState) (p : Nat) (h : st.pending_request = none) :
    (onPeerAppeared st p).1.prompt = st.prompt ∧
    (onPeerAppeared st p).1.finished = st.finished ∧
    (((onPeerAppeared st p).2 = [] ∧ (onPeerAppeared st p).1.pending_request = none) ∨
      ((onPeerAppeared st p).2 = [SubAction.sendRequest p ⟨st.prompt, none⟩] ∧
        (onPeerAppeared st p).1.pending_request.isSome)) := by
  by_cases hc : p ∈ st.discovered_leaders
  · simp [onPeerAppeared, hc, h]
  · simp [onPeerAppeared, hc, h]

lemma onPeersList_none (ps : List Nat) (st : SubState) (h : st.pending_request = none) :
    (onPeersList st ps).1.prompt = st.prompt ∧
    (((onPeersList st ps).2 = [] ∧ (onPeersList st ps).1.pending_request = none) ∨
      (countSends (onPeersList st ps).2 = 1 ∧ (onPeersList st ps).1.pending_request.isSome)) := by
  induction ps generalizing st with
  | nil => simp [onPeersList, h]
  | cons p ps ih =>
    obtain ⟨hp, hf, hcase⟩ := onPeerAppeared_none st p h
    rcases hcase with ⟨ha, hb⟩ | ⟨ha, hb⟩
    · obtain ⟨ip, icase⟩ := ih (onPeerAppeared st p).1 hb
      constructor
      · simp [onPeersList, ip, hp]
      rcases icase with ⟨ia, ib⟩ | ⟨ia, ib⟩
      · exact Or.inl ⟨by simp [onPeersList, ha, ia], by simp [onPeersList, ib]⟩
      · exact Or.inr ⟨by simp [onPeersList, countSends_append, ha, ia, countSends],
          by simp [onPeersList, ib]⟩
    · obtain ⟨ia, ib, ic, _⟩ := onPeersList_isSome ps (onPeerAppeared st p).1 hb
      refine ⟨by simp [onPeersList, ic, hp], Or.inr ⟨?_, ?_⟩⟩
      · simp [onPeersList, countSends_append, ha, ia, countSends]
      · simp only [onPeersList]
        rw [ib]
        exact hb

lemma stepSub_prompt (e : SubEvent) (st : SubState) : (stepSub st e).1.prompt = st.prompt := by
  cases e with
  | discovered ps =>
    cases hp : st.pending_request
    · exact (onPeersList_none ps st hp).1
    · exact (onPeersList_isSome ps st (by rw [hp]; rfl)).2.2.1
  | expired ps => rfl
  | responseMsg rid resp => rfl
  | outboundFailure rid err => rfl
  | other => rfl

lemma stepSub_none (e : SubEvent) (st : SubState) (h : st.pending_request = none) :
    (countSends (stepSub st e).2 = 0 ∧ (stepSub st e).1.pending_request = none) ∨
    (countSends (stepSub st e).2 = 1 ∧ (stepSub st e).1.pending_request.isSome) := by
  cases e with
  | discovered ps =>
    rcases (onPeersList_none ps st h).2 with ⟨ha, hb⟩ | ⟨ha, hb⟩
    · exact Or.inl ⟨by simp [stepSub, ha, countSends], by simp [stepSub, hb]⟩
    · exact Or.inr ⟨by simp [stepSub, ha], by simp [stepSub, hb]⟩
  | expired ps => exact Or.inl ⟨rfl, h⟩
  | responseMsg rid resp =>
    refine Or.inl ⟨?_, h⟩
    by_cases hs : resp.success <;> simp [stepSub, hs, countSends]
  | outboundFailure rid err => exact Or.inl ⟨rfl, h⟩
  | other => exact Or.inl ⟨rfl, h⟩

lemma runSub_le_one (evts : List SubEvent) (st : SubState) (h : st.pending_request = none) :
    countSends (runSub st evts).2 ≤ 1 := by
  induction evts generalizing st with
  | nil => simp [runSub, countSends]
  | cons e es ih =>
    by_cases hf : st.finished
    · simp [runSub, hf, countSends]
    · rcases stepSub_none e st h with ⟨ha, hb⟩ | ⟨ha, hb⟩
      · have := ih (stepSub st e).1 hb
        simp only [runSub, hf]
        simp [countSends_append, ha]
        omega
      · have := runSub_isSome es (stepSub st e).1 hb
        simp only [runSub, hf]
        simp [countSends_append, ha, this]

lemma runSub_cons_not_finished (st : SubState) (e : SubEvent) (es : List SubEvent)
    (hf : st.finished = false) :
    runSub st (e :: es)
      = ((runSub (stepSub st e).1 es).1,
         (stepSub st e).2 ++ (runSub (stepSub st e).1 es).2) := by
  simp [runSub, hf]

lemma onPeerAppeared_prompt (st : SubState) (p : Nat) :
    (onPeerAppeared st p).1.prompt = st.prompt := by
  by_cases hc : p ∈ st.discovered_leaders
  · simp [onPeerAppeared, hc]
  · cases hp : st.pending_request <;> simp [onPeerAppeared, hc, hp]

lemma onPeerAppeared_mem_payload (st : SubState) (p q : Nat) (r : InferenceRequest String)
    (hm : SubAction.sendRequest q r ∈ (onPeerAppeared st p).2) :
    q = p ∧ r = ⟨st.prompt, none⟩ := by
  by_cases hc : p ∈ st.discovered_leaders
  · simp [onPeerAppeared, hc] at hm
  · cases hp : st.pending_request with
    | some v => simp [onPeerAppeared, hc, hp] at hm
    | none =>
      simp [onPeerAppeared, hc, hp] at hm
      exact hm

lemma onPeersList_mem_payload (ps : List Nat) (st : SubState) (q : Nat)
    (r : InferenceRequest String) (hm : SubAction.sendRequest q r ∈ (onPeersList st ps).2) :
    r = ⟨st.prompt, none⟩ := by
  induction ps generalizing st with
  | nil => simp [onPeersList] at hm
  | cons p ps ih =>
    simp only [onPeersList] at hm
    rcases List.mem_append.mp hm with hm1 | hm2
    · exact (onPeerAppeared_mem_payload st p q r hm1).2
    · rw [show st.prompt = (onPeerAppeared st p).1.prompt from (onPeerAppeared_prompt st p).symm]
      exact ih _ hm2

lemma stepSub_mem_payload (e : SubEvent) (st : SubState) (q : Nat)
    (r : InferenceRequest String) (hm : SubAction.sendRequest q r ∈ (stepSub st e).2) :
    r = ⟨st.prompt, none⟩ := by
  cases e with
  | discovered ps => exact onPeersList_mem_payload ps st q r hm
  | expired ps => simp [stepSub] at hm
  | responseMsg rid resp =>
    by_cases hs : resp.success <;> simp [stepSub, hs] at hm
  | outboundFailure rid err => simp [stepSub] at hm
  | other => simp [stepSub] at hm

lemma runSub_mem_payload (evts : List SubEvent) (st : SubState) (q : Nat)
    (r : InferenceRequest String) (hm : SubAction.sendRequest q r ∈ (runSub st evts).2) :
    r = ⟨st.prompt, none⟩ := by
  induction evts generalizing st with
  | nil => simp [runSub] at hm
  | cons e es ih =>
    by_cases hf : st.finished
    · rw [runSub_finished (e :: es) st hf] at hm
      simp at hm
    · rw [runSub_cons_not_finished st e es (by simp [hf])] at hm
      rcases List.mem_append.mp hm with hm1 | hm2
      · exact stepSub_mem_payload e st q r hm1
      · rw [show st.prompt = (stepSub st e).1.prompt from (stepSub_prompt e st).symm]
        exact ih _ hm2

lemma runSub_first_target (evts : List SubEvent) :
    ∀ st : SubState, st.pending_request = none → st.discovered_leaders = [] →
      st.finished = false → ∀ (p : Nat) (r : InferenceRequest String),
      SubAction.sendRequest p r ∈ (runSub st evts).2 → firstDiscovered evts = some p := by
  induction evts with
  | nil =>
    intro st _ _ _ p r hm
    simp [runSub] at hm
  | cons e es ih =>
    intro st h hd hf p r hm
    rw [runSub_cons_not_finished st e es hf] at hm
    cases e with
    | discovered ps =>
      cases ps with
      | nil =>
        rcases List.mem_append.mp hm with hm1 | hm2
        · simp [stepSub, onPeersList] at hm1
        · exact ih _ h hd hf p r hm2
      | cons q qs =>
        have haq2 : (onPeerAppeared st q).2 = [SubAction.sendRequest q ⟨st.prompt, none⟩] := by
          simp [onPeerAppeared, hd, h]
        have haqs : (onPeerAppeared st q).1.pending_request.isSome := by
          simp [onPeerAppeared, hd, h]
        have hrest : (onPeersList (onPeerAppeared st q).1 qs).2 = [] :=
          (onPeersList_isSome qs _ haqs).1
        have hstepact : (stepSub st (SubEvent.discovered (q :: qs))).2
            = [SubAction.sendRequest q ⟨st.prompt, none⟩] := by
          simp [stepSub, onPeersList, haq2, hrest]
        have hstep_pending :
            (stepSub st (SubEvent.discovered (q :: qs))).1.pending_request.isSome := by
          have h2 := (onPeersList_isSome qs (onPeerAppeared st q).1 haqs).2.1
          show (onPeersList st (q :: qs)).1.pending_request.isSome
          simp only [onPeersList]
          rw [h2]
          exact haqs
        have hnorest :
            countSends (runSub (stepSub st (SubEvent.discovered (q :: qs))).1 es).2 = 0 :=
          runSub_isSome es _ hstep_pending
        rcases List.mem_append.mp hm with hm1 | hm2
        · rw [hstepact] at hm1
          simp at hm1
          rw [show firstDiscovered (SubEvent.discovered (q :: qs) :: es) = some q from rfl,
            hm1.1]
        · exact absurd hm2 (countSends_zero_not_mem _ hnorest p r)
    | expired ps =>
      rcases List.mem_append.mp hm with hm1 | hm2
      · simp [stepSub] at hm1
      · refine ih ((stepSub st (SubEvent.expired ps)).1) ?_ ?_ ?_ p r hm2
        · exact h
        · show (stepSub st (SubEvent.expired ps)).1.discovered_leaders = []
          simp [stepSub, hd]
        · exact hf
    | responseMsg rid resp =>
      rcases List.mem_append.mp hm with hm1 | hm2
      · by_cases hs : resp.success <;> simp [stepSub, hs] at hm1
      · rw [runSub_finished es _ rfl] at hm2
        simp at hm2
    | outboundFailure rid err =>
      rcases List.mem_append.mp hm with hm1 | hm2
      · simp [stepSub] at hm1
      · rw [runSub_finished es _ rfl] at hm2
        simp at hm2
    | other =>
      rcases List.mem_append.mp hm with hm1 | hm2
      · simp [stepSub] at hm1
      · exact ih _ h hd hf p r hm2

/-- C6: over any event trace from its initial state the Subordinate
dispatches at most one InferenceRequest in its lifetime; every
dispatched request carries payload (prompt, model: None) and targets
the first-discovered peer of the trace; and from any state where a
request is already outstanding, no request is ever dispatched. -/
theorem c6_at_most_one_request (prompt : String) (evts : List SubEvent) :
    countSends (runSub (initSub prompt) evts).2 ≤ 1 ∧
    (∀ (p : Nat) (r : InferenceRequest String),
      SubAction.sendRequest p r ∈ (runSub (initSub prompt) evts).2 →
      r = { prompt := prompt, model := none } ∧ firstDiscovered evts = some p) ∧
    (∀ st : SubState, st.pending_request.isSome → countSends (runSub st evts).2 = 0) := by
  refine ⟨runSub_le_one evts _ rfl, ?_, fun st h => runSub_isSome evts st h⟩
  intro p r hm
  exact ⟨runSub_mem_payload evts _ p r hm,
    runSub_first_target evts _ rfl rfl rfl p r hm⟩

/-- C6 witness: a trace discovering two peers at once produces exactly
one send, to the first peer, with the prompt and no model; a state with
an outstanding request produces none. -/
theorem c6_at_most_one_request_witness :
    countSends (runSub (initSub "hi") [SubEvent.discovered [5, 6]]).2 ≤ 1 ∧
    (({ prompt := "hi", model := none } : InferenceRequest String)
        = { prompt := "hi", model := none } ∧
      firstDiscovered [SubEvent.discovered [5, 6]] = some 5) ∧
    countSends (runSub ⟨"hi", some 0, [], 1, false⟩ [SubEvent.discovered [5, 6]]).2 = 0 :=
  ⟨(c6_at_most_one_request "hi" [SubEvent.discovered [5, 6]]).1,
   (c6_at_most_one_request "hi" [SubEvent.discovered [5, 6]]).2.1 5 ⟨"hi", none⟩ (by decide),
   (c6_at_most_one_request "hi" [SubEvent.discovered [5, 6]]).2.2
     ⟨"hi", some 0, [], 1, false⟩ rfl⟩

/-- C10: the Subordinate terminates on the first Response or first
OutboundFailure it receives, ignoring the event's request_id entirely
(the step is identical for any request_id, even from a state where no
request was ever sent), and processes no further events afterwards. -/
theorem c10_terminates_without_id_check (st : SubState) (rid rid2 : Nat)
    (resp : InferenceResponse String) (err : String) (rest : List SubEvent)
    (h : st.finished = false) :
    (runSub st (SubEvent.responseMsg rid resp :: rest)).2
      = (stepSub st (SubEvent.responseMsg rid resp)).2 ∧
    (runSub st (SubEvent.outboundFailure rid err :: rest)).2
      = (stepSub st (SubEvent.outboundFailure rid err)).2 ∧
    stepSub st (SubEvent.responseMsg rid resp) = stepSub st (SubEvent.responseMsg rid2 resp) ∧
    stepSub st (SubEvent.outboundFailure rid err)
      = stepSub st (SubEvent.outboundFailure rid2 err) ∧
    SubAction.exit 0 ∈ (stepSub st (SubEvent.responseMsg rid resp)).2 ∧
    SubAction.exit 1 ∈ (stepSub st (SubEvent.outboundFailure rid err)).2 := by
  have hr : (stepSub st (SubEvent.responseMsg rid resp)).1.finished = true := rfl
  have ho : (stepSub st (SubEvent.outboundFailure rid err)).1.finished = true := rfl
  refine ⟨?_, ?_, rfl, rfl, ?_, ?_⟩
  · simp [runSub, h, runSub_finished rest _ hr]
  · simp [runSub, h, runSub_finished rest _ ho]
  · simp [stepSub]
  · simp [stepSub]

/-- C10 witness: a Response with a request_id never issued still ends
the run, leaving the trailing discovery event unprocessed. -/
theorem c10_terminates_without_id_check_witness :
    (runSub (initSub "p")
        [SubEvent.responseMsg 9 ⟨"a", true, none⟩, SubEvent.discovered [3]]).2
      = (stepSub (initSub "p") (SubEvent.responseMsg 9 ⟨"a", true, none⟩)).2 ∧
    SubAction.exit 0 ∈ (stepSub (initSub "p") (SubEvent.responseMsg 9 ⟨"a", true, none⟩)).2 :=
  ⟨(c10_terminates_without_id_check (initSub "p") 9 5 ⟨"a", true, none⟩ "e"
      [SubEvent.discovered [3]] rfl).1,
   (c10_terminates_without_id_check (initSub "p") 9 5 ⟨"a", true, none⟩ "e"
      [SubEvent.discovered [3]] rfl).2.2.2.2.1⟩

end AxonCluster
